import Mathlib

/-!
Verification of the igshelf media-harvesting core: the domain media model
(igshelf.go), the archive album reconstructor (internal/archive/media.go),
the remote paginated iterator (the Instagram Basic Display API client's
List/MediaIter), and the download orchestrator (internal/downloader/downloader.go).

Conventions of the embedding:
- Go's `time.Time` values are modelled as `Int` instants; `time.Time.Equal`
  becomes integer equality and `After` the strict order.
- Pointers are modelled by values; `nil` errors by `Option`.
- The download orchestrator's bounded worker pool is modelled by the
  deterministic in-order schedule (items processed in enqueue order, run
  stopping at the first fatal error); a ghost write counter records how many
  file writes the run performed.
-/

namespace Igshelf

/-- MediaTypeImage indicates the media is an image (igshelf.go). -/
def MediaTypeImage : String := "IMAGE"

/-- MediaTypeVideo indicates the media is a video (igshelf.go). -/
def MediaTypeVideo : String := "VIDEO"

/-- MediaTypeAlbum indicates the media is a carousel album (igshelf.go). -/
def MediaTypeAlbum : String := "CAROUSEL_ALBUM"

/-- Media represents an image, video, or album (struct `Media` of igshelf.go);
`Children` makes the type recursive, hence the nested inductive. -/
inductive Media : Type where
  | mk
    (id : String)
    (type : String)
    (caption : String)
    (location : String)
    (thumbnailLocation : String)
    (filename : String)
    (thumbnailFilename : String)
    (permalink : String)
    (takenAt : Int)
    (children : List Media)

/-- Projection for the `ID` field. -/
def Media.id : Media → String
  | .mk v _ _ _ _ _ _ _ _ _ => v

/-- Projection for the `Type` field. -/
def Media.type : Media → String
  | .mk _ v _ _ _ _ _ _ _ _ => v

/-- Projection for the `Caption` field. -/
def Media.caption : Media → String
  | .mk _ _ v _ _ _ _ _ _ _ => v

/-- Projection for the `Location` field. -/
def Media.location : Media → String
  | .mk _ _ _ v _ _ _ _ _ _ => v

/-- Projection for the `ThumbnailLocation` field. -/
def Media.thumbnailLocation : Media → String
  | .mk _ _ _ _ v _ _ _ _ _ => v

/-- Projection for the `Filename` field. -/
def Media.filename : Media → String
  | .mk _ _ _ _ _ v _ _ _ _ => v

/-- Projection for the `ThumbnailFilename` field. -/
def Media.thumbnailFilename : Media → String
  | .mk _ _ _ _ _ _ v _ _ _ => v

/-- Projection for the `Permalink` field. -/
def Media.permalink : Media → String
  | .mk _ _ _ _ _ _ _ v _ _ => v

/-- Projection for the `TakenAt` field (an `Int` instant). -/
def Media.takenAt : Media → Int
  | .mk _ _ _ _ _ _ _ _ v _ => v

/-- Projection for the `Children` field. -/
def Media.children : Media → List Media
  | .mk _ _ _ _ _ _ _ _ _ v => v

/-- Zero value of `Media` (all string fields empty, zero time, no children),
as a Go `igshelf.Media{}` literal leaves them. -/
def mdefault : Media := .mk "" "" "" "" "" "" "" "" 0 []

instance : Inhabited Media := ⟨mdefault⟩

end Igshelf

namespace Archive

open Igshelf

/-- MediaIter is the iterator for a media timeline of internal/archive/media.go.
The Go context is modelled by the `ctxCanceled` flag (`it.ctx.Err() != nil`). -/
structure MediaIter where
  err : Option String
  ctxCanceled : Bool
  cursor : Nat
  current : Option Media
  timeline : List Media

/-- Length of the contiguous prefix of `rest` whose entries have the same
`takenAt` (`time.Time.Equal`) and the same `caption` as `m` — the scan of
`MediaIter.Next` (media.go lines 193-199) counted from `cursor+1`. -/
def matchRun (m : Media) : List Media → Nat
  | [] => 0
  | x :: xs =>
    if m.takenAt = x.takenAt ∧ m.caption = x.caption then matchRun m xs + 1 else 0

/-- MediaIter.Next of internal/archive/media.go as a state transformer: it
returns the Go boolean result paired with the updated iterator. -/
def MediaIter.next (it : MediaIter) : Bool × MediaIter :=
  if it.err.isSome || it.ctxCanceled then (false, it)
  else
    -- The cursor is shifted to skip the children of the current media if it has any.
    let cursor :=
      match it.current with
      | none => it.cursor
      | some m => if m.children.length > 0 then it.cursor + m.children.length else it.cursor + 1
    if it.timeline.length ≤ cursor then (false, { it with cursor := cursor })
    else
      -- When the next few media share date and caption, a carousel album is created.
      let m := it.timeline.getD cursor mdefault
      let k := matchRun m (it.timeline.drop (cursor + 1))
      let current :=
        if 0 < k then
          Media.mk (m.id ++ "album") MediaTypeAlbum m.caption "" "" "" "" "" m.takenAt
            ((it.timeline.drop cursor).take (k + 1))
        else m
      (true, { it with cursor := cursor, current := some current })

/-- Media method of the archive iterator: the item the cursor points to. -/
def MediaIter.media (it : MediaIter) : Option Media := it.current

/-- Iterator state as `MediaService.List` leaves it on success: a clean
iterator positioned before the given timeline. -/
def initIter (timeline : List Media) : MediaIter :=
  { err := none, ctxCanceled := false, cursor := 0, current := none, timeline := timeline }

/-- Drains up to `fuel` items from the iterator, collecting each item a
successful `Next` prepares, stopping at the first `false`. -/
def collect : Nat → MediaIter → List Media
  | 0, _ => []
  | fuel + 1, it =>
    match it.next with
    | (true, it') => it'.current.getD mdefault :: collect fuel it'
    | (false, _) => []

/-- Applies `Next` repeatedly, keeping only the final state. -/
def runN : Nat → MediaIter → MediaIter
  | 0, it => it
  | n + 1, it => runN n it.next.2

/-- Album synthesized for a run starting at `m` with children `run`, as the
spec describes it: id is the first member's id with the fixed suffix "album",
caption and takenAt are copied from the first member. -/
def mkAlbumSpec (m : Media) (run : List Media) : Media :=
  Media.mk (m.id ++ "album") MediaTypeAlbum m.caption "" "" "" "" "" m.takenAt run

/-- Spec-side description of the Archive Album Reconstructor's output: the
timeline split into maximal contiguous runs agreeing with the run's first
entry on takenAt and caption; a run of length 1 yields the leaf unchanged, a
longer run one synthesized album whose children are the run in order. -/
def groupRunsSpec : List Media → List Media
  | [] => []
  | m :: rest =>
    let k := matchRun m rest
    if 0 < k then mkAlbumSpec m (m :: rest.take k) :: groupRunsSpec (rest.drop k)
    else m :: groupRunsSpec rest
termination_by l => l.length
decreasing_by
  · simp only [List.length_drop, List.length_cons]
    omega
  · simp only [List.length_cons]
    omega

end Archive

namespace Instagram

open Igshelf

/-- The raw media record requested from the Instagram Basic Display API
(struct `media` of the instagram package); `Children.Data` makes it
recursive. -/
inductive RawMedia : Type where
  | mk
    (id : String)
    (type : String)
    (caption : String)
    (url : String)
    (permalink : String)
    (thumbnailURL : String)
    (takenAt : Int)
    (children : List RawMedia)

/-- Projection for the raw `ID` field. -/
def RawMedia.id : RawMedia → String
  | .mk v _ _ _ _ _ _ _ => v

/-- Projection for the raw `Type` field. -/
def RawMedia.type : RawMedia → String
  | .mk _ v _ _ _ _ _ _ => v

/-- Projection for the raw `Caption` field. -/
def RawMedia.caption : RawMedia → String
  | .mk _ _ v _ _ _ _ _ => v

/-- Projection for the raw `URL` field. -/
def RawMedia.url : RawMedia → String
  | .mk _ _ _ v _ _ _ _ => v

/-- Projection for the raw `Permalink` field. -/
def RawMedia.permalink : RawMedia → String
  | .mk _ _ _ _ v _ _ _ => v

/-- Projection for the raw `ThumbnailURL` field. -/
def RawMedia.thumbnailURL : RawMedia → String
  | .mk _ _ _ _ _ v _ _ => v

/-- Projection for the raw `TakenAt` field. -/
def RawMedia.takenAt : RawMedia → Int
  | .mk _ _ _ _ _ _ v _ => v

/-- Projection for the raw `Children.Data` field. -/
def RawMedia.children : RawMedia → List RawMedia
  | .mk _ _ _ _ _ _ _ v => v

/-- Models Go's `TakenAt.Format("200601_")`: the year-month file-name
prefix rendered from the instant. The exact digits are irrelevant to every
claim; only how the prefix is composed into names matters. -/
def formatYM (t : Int) : String := toString t ++ "_"

/-- Normalization of a nested album child (MediaService.List lines 170-185):
only ID, Type, Location and ThumbnailLocation are copied from the raw child
(caption and takenAt stay zero), and the file names use the parent's
takenAt prefix. -/
def normChild (parentTakenAt : Int) (c : RawMedia) : Media :=
  let fname := formatYM parentTakenAt ++ c.id
  let filename :=
    if c.type = MediaTypeImage ∨ c.type = MediaTypeAlbum then fname ++ ".jpg"
    else if c.type = MediaTypeVideo then fname ++ ".mp4"
    else ""
  let thumbnailFilename := if c.type = MediaTypeVideo then fname ++ "_cover.jpg" else ""
  Media.mk c.id c.type "" c.url c.thumbnailURL filename thumbnailFilename "" 0 []

/-- Normalization of one top-level raw media item into the domain model
(MediaService.List lines 147-187). -/
def normalize (raw : RawMedia) : Media :=
  let fname := formatYM raw.takenAt ++ raw.id
  let filename :=
    if raw.type = MediaTypeImage ∨ raw.type = MediaTypeAlbum then fname ++ ".jpg"
    else if raw.type = MediaTypeVideo then fname ++ ".mp4"
    else ""
  let thumbnailFilename := if raw.type = MediaTypeVideo then fname ++ "_cover.jpg" else ""
  Media.mk raw.id raw.type raw.caption raw.url raw.thumbnailURL filename thumbnailFilename
    raw.permalink raw.takenAt (raw.children.map (normChild raw.takenAt))

/-- One page of the media API response (`mediaListResp`): the batch of raw
items and `Paging.Cursors.After`. -/
structure Page where
  batch : List RawMedia
  after : String

/-- State of the fetch closure built by MediaService.List: the `after` query
parameter (`none` while the key is absent) and the pages the server has yet
to deliver, in order. -/
structure FetchSt where
  after : Option String
  pages : List Page

/-- The fetch closure of MediaService.List over a pre-determined page
sequence: an empty `after` stops future fetches; otherwise the next page is
consumed, the cursor advanced, and its batch normalized. Querying beyond the
provided pages models a server fault. -/
def fetchStep (st : FetchSt) : Except String (List Media) × FetchSt :=
  if st.after = some "" then (.ok [], st)
  else
    match st.pages with
    | [] => (.error "server: no further page", st)
    | p :: rest => (.ok (p.batch.map normalize), ⟨some p.after, rest⟩)

/-- MediaIter of the instagram package: sticky error, intra-page cursor, the
buffered batch and the fetch state. -/
structure MediaIter where
  err : Option String
  cursor : Nat
  batch : List Media
  fst : FetchSt

/-- MediaIter.Next of the instagram package as a state transformer. The Go
guard `mi.cursor >= len(mi.batch)-1` over ints is `batch.length ≤ cursor + 1`
over naturals. -/
def MediaIter.next (it : MediaIter) : Bool × MediaIter :=
  if it.err.isSome then (false, it)
  else if it.batch.length ≤ it.cursor + 1 then
    match fetchStep it.fst with
    | (.error e, f') => (false, ⟨some e, 0, [], f'⟩)
    | (.ok b, f') => if b.length = 0 then (false, ⟨none, 0, b, f'⟩) else (true, ⟨none, 0, b, f'⟩)
  else (true, { it with cursor := it.cursor + 1 })

/-- Media method of the remote iterator: `mi.batch[mi.cursor]`. -/
def MediaIter.media (it : MediaIter) : Media := it.batch.getD it.cursor mdefault

/-- Iterator as MediaService.List returns it: no error, empty buffered batch,
`after` key absent, the whole page sequence pending. -/
def initIter (pages : List Page) : MediaIter :=
  { err := none, cursor := 0, batch := [], fst := ⟨none, pages⟩ }

/-- Drains up to `fuel` items, collecting the current media after every
successful `Next`, stopping at the first `false`. -/
def collect : Nat → MediaIter → List Media
  | 0, _ => []
  | fuel + 1, it =>
    match it.next with
    | (true, it') => it'.media :: collect fuel it'
    | (false, _) => []

/-- Applies `Next` repeatedly, keeping only the final state. -/
def runN : Nat → MediaIter → MediaIter
  | 0, it => it
  | n + 1, it => runN n it.next.2

/-- A well-formed page sequence as the claim presents it: finite, delivered
in order, terminated by the single page whose `after` cursor is empty; every
page before the last carries a non-empty cursor and (the amendment) a
non-empty batch. -/
def chainOK : List Page → Bool
  | [] => false
  | [p] => p.after == ""
  | p :: q :: rest => !p.batch.isEmpty && !(p.after == "") && chainOK (q :: rest)

/-- Concatenation of the normalized batches of the pages, in page order. -/
def flatPages (ps : List Page) : List Media :=
  ps.flatMap fun p => p.batch.map normalize

end Instagram

namespace Downloader

open Igshelf

/-- Go error values distinguished by the os error predicates. -/
inductive GoErr : Type where
  | errExist
  | errNotExist
  | other (msg : String)
deriving DecidableEq

/-- The local destination directory as an association list from path to
file content; writes prepend, lookups take the first hit. -/
def FS : Type := List (String × String)

/-- True when the path has a file. -/
def fsHas (fs : FS) (path : String) : Bool :=
  fs.any fun e => e.1 == path

/-- Content stored at the path, if any. -/
def fsGet (fs : FS) (path : String) : Option String :=
  (fs.find? fun e => e.1 == path).map fun e => e.2

/-- ioutil.WriteFile: stores content at the path (overwriting). -/
def fsWrite (fs : FS) (path content : String) : FS :=
  (path, content) :: fs

/-- os.Stat on the destination: a nil error when the file exists, ErrNotExist
otherwise. -/
def osStat (fs : FS) (path : String) : Option GoErr :=
  if fsHas fs path then none else some .errNotExist

/-- os.IsExist: true only for an error that reports a file already existing;
false on a nil error. -/
def osIsExist : Option GoErr → Bool
  | some .errExist => true
  | _ => false

/-- filepath.Join of the destination directory and a file name. -/
def pathJoin (dir name : String) : String := dir ++ "/" ++ name

/-- Environment of one orchestrator run: destination directory, the source's
Download call (content and optional thumbnail, or a fault), and which paths
the filesystem accepts writes for. -/
structure DlEnv where
  dir : String
  fetch : Media → Except String (String × Option String)
  writeOk : String → Bool

/-- Body of one download worker (Service.Download lines 103-136) under the
sequential schedule: returns the filesystem after the item, how many file
writes happened, and the fatal error if a write failed. A missing filename is
a no-op; the existence check uses os.IsExist on the os.Stat error exactly as
the code does; a fetch fault is logged and swallowed (`return nil`). -/
def processItem (env : DlEnv) (fs : FS) (m : Media) : FS × Nat × Option String :=
  if m.filename = "" then (fs, 0, none)
  else
    let contentPath := pathJoin env.dir m.filename
    if osIsExist (osStat fs contentPath) then (fs, 0, none)
    else
      match env.fetch m with
      | .error _ => (fs, 0, none)
      | .ok (content, thumbnail) =>
        if env.writeOk contentPath then
          let fs1 := fsWrite fs contentPath content
          match thumbnail with
          | none => (fs1, 1, none)
          | some tb =>
            let thumbnailPath := pathJoin env.dir m.thumbnailFilename
            if env.writeOk thumbnailPath then (fsWrite fs1 thumbnailPath tb, 2, none)
            else (fs1, 1, some ("failed to store media thumbnail " ++ m.id))
        else (fs, 0, some ("failed to store media content " ++ m.id))

/-- Workers applied to the work list in enqueue order, stopping at the first
fatal error (the errgroup cancels remaining work); accumulates the ghost
write count. -/
def copyItems (env : DlEnv) : FS → List Media → FS × Nat × Option String
  | fs, [] => (fs, 0, none)
  | fs, m :: rest =>
    match processItem env fs m with
    | (fs1, w1, some e) => (fs1, w1, some e)
    | (fs1, w1, none) =>
      let (fs2, w2, e2) := copyItems env fs1 rest
      (fs2, w1 + w2, e2)

/-- Work list the producer goroutine enqueues (lines 75-95): every top-level
item followed by its children; children of children are not enqueued. -/
def workList (timeline : List Media) : List Media :=
  timeline.flatMap fun m => m :: m.children

/-- Service.Download under the sequential schedule. Inputs: the drained
iterator result (timeline or iterator fault), whether db.Store succeeds, and
the initial destination filesystem. Output: the run's returned error, the
timeline the repository persisted (none when Store did not succeed), the
final filesystem and the ghost count of file writes performed. -/
def download (env : DlEnv) (listResult : Except String (List Media)) (storeOk : Bool)
    (fs0 : FS) : Option String × Option (List Media) × FS × Nat :=
  match listResult with
  | .error e => (some ("failed to fetch the timeline: " ++ e), none, fs0, 0)
  | .ok timeline =>
    if storeOk then
      let (fs1, w, e) := copyItems env fs0 (workList timeline)
      (e, some timeline, fs1, w)
    else (some "failed to store the timeline", none, fs0, 0)

end Downloader

namespace Archive

open Igshelf

/-- The raw archive media record (struct `media` of internal/archive/media.go):
caption, publish instant and the path inside the zip archive. -/
structure RawMedia where
  caption : String
  takenAt : Int
  path : String

/-- Content of media.json (struct `nomenclature`). -/
structure Nomenclature where
  videos : List RawMedia
  photos : List RawMedia

/-- Models filepath.Split's file-name component: the part after the last
slash. -/
def pathBase (p : String) : String :=
  (p.splitOn "/").getLastD ""

/-- Models stripping filepath.Ext: the name up to the last dot, the whole
name when it has no dot. -/
def dropExt (s : String) : String :=
  let parts := s.splitOn "."
  if parts.length ≤ 1 then s else String.intercalate "." parts.dropLast

/-- Normalization of one raw archive entry into a leaf of the given type
(List lines 117-142): location is the archive path, id the base file name
without extension, filename the year-month prefix plus base name. -/
def normalize (type : String) (raw : RawMedia) : Media :=
  let fname := pathBase raw.path
  Media.mk (dropExt fname) type raw.caption raw.path "" (Instagram.formatYM raw.takenAt ++ fname)
    "" "" raw.takenAt []

/-- The flat timeline List builds before sorting: photos as IMAGE leaves then
videos as VIDEO leaves. -/
def buildTimeline (nom : Nomenclature) : List Media :=
  nom.photos.map (normalize MediaTypeImage) ++ nom.videos.map (normalize MediaTypeVideo)

/-- Models `sort.Slice(timeline, ...TakenAt.After...)`: the timeline in
reverse chronological order (newest first). -/
def sortTimeline (timeline : List Media) : List Media :=
  timeline.mergeSort fun a b => b.takenAt ≤ a.takenAt

/-- MediaService.List of internal/archive/media.go. The manifest argument is
what the table of contents holds for media.json: `none` when the file is
absent, `some (.error e)` when opening it fails, `some (.ok content)` its
raw bytes; `decode` models json.Decode into the nomenclature. -/
def list (manifest : Option (Except String String))
    (decode : String → Except String Nomenclature) : MediaIter :=
  match manifest with
  | none => { err := some "media.json not found in archive", ctxCanceled := false,
              cursor := 0, current := none, timeline := [] }
  | some (.error e) => { err := some ("failed to open archived media.json: " ++ e),
                         ctxCanceled := false, cursor := 0, current := none, timeline := [] }
  | some (.ok content) =>
    match decode content with
    | .error e => { err := some ("failed to unmarshal archived media.json: " ++ e),
                    ctxCanceled := false, cursor := 0, current := none, timeline := [] }
    | .ok nom => { err := none, ctxCanceled := false, cursor := 0, current := none,
                   timeline := sortTimeline (buildTimeline nom) }

end Archive

namespace Archive

open Igshelf

/-- Cursor position Next works with after skipping the children of the
current media (media.go lines 176-184). -/
def effCursor (it : MediaIter) : Nat :=
  match it.current with
  | none => it.cursor
  | some m => if m.children.length > 0 then it.cursor + m.children.length else it.cursor + 1

/-- Item Next prepares when the (already shifted) cursor points at position
`c` of the timeline: the leaf itself for a run of length 1, the synthesized
carousel album for a longer run. -/
def emitAt (tl : List Media) (c : Nat) : Media :=
  let m := tl.getD c mdefault
  let k := matchRun m (tl.drop (c + 1))
  if 0 < k then
    Media.mk (m.id ++ "album") MediaTypeAlbum m.caption "" "" "" "" "" m.takenAt
      ((tl.drop c).take (k + 1))
  else m

/-- Length of the maximal run starting at position `c`: the matching scan
plus the first entry itself. -/
def runLenAt (tl : List Media) (c : Nat) : Nat :=
  matchRun (tl.getD c mdefault) (tl.drop (c + 1)) + 1

end Archive

namespace Instagram

open Igshelf

/-- Well-formedness of the fetch state reachable during a paginated run:
either the cursor key is set to the empty terminator and no page is pending,
or pages are pending, the cursor key is not the terminator, and the pending
pages form a well-formed chain. -/
def pagesOK (f : FetchSt) : Prop :=
  (f.after = some "" ∧ f.pages = []) ∨ (f.after ≠ some "" ∧ chainOK f.pages = true)

/-- Invariant of remote iterator states reachable during a clean paginated
run: no error, the cursor inside the buffered batch (or the pristine empty
batch), and a well-formed fetch state. -/
def goodR (it : MediaIter) : Prop :=
  it.err = none ∧ (it.cursor < it.batch.length ∨ (it.batch = [] ∧ it.cursor = 0)) ∧
    pagesOK it.fst

/-- Items a clean iterator state has yet to yield: the rest of the buffered
batch followed by the pending pages, normalized, in order. -/
def remExp (it : MediaIter) : List Media :=
  it.batch.drop (it.cursor + 1) ++ flatPages it.fst.pages

end Instagram

section Theorems

open Igshelf

/-- A sticky archive iterator error makes Next return false without touching
the state. -/
theorem Archive.arch_next_of_err (it : Archive.MediaIter) (h : it.err.isSome = true) :
    it.next = (false, it) := by
  unfold Archive.MediaIter.next
  rw [h]
  simp

/-- Repeated Next calls leave a faulted archive iterator unchanged. -/
theorem Archive.arch_runN_of_err (n : Nat) (it : Archive.MediaIter) (h : it.err.isSome = true) :
    Archive.runN n it = it := by
  induction n with
  | zero => rfl
  | succ n ih =>
    show Archive.runN n it.next.2 = it
    rw [Archive.arch_next_of_err it h]
    exact ih

/-- A sticky remote iterator error makes Next return false without touching
the state. -/
theorem Instagram.remote_next_of_err (it : Instagram.MediaIter) (h : it.err.isSome = true) :
    it.next = (false, it) := by
  unfold Instagram.MediaIter.next
  rw [h]
  simp

/-- Repeated Next calls leave a faulted remote iterator unchanged. -/
theorem Instagram.remote_runN_of_err (n : Nat) (it : Instagram.MediaIter) (h : it.err.isSome = true) :
    Instagram.runN n it = it := by
  induction n with
  | zero => rfl
  | succ n ih =>
    show Instagram.runN n it.next.2 = it
    rw [Instagram.remote_next_of_err it h]
    exact ih

/-- C6: for both media iterators, once the iterator's error is set (Err
returns non-nil), every subsequent call to Next returns false and the error
stays set; iteration never resumes after a source-level fault. -/
theorem sticky_error_never_resumes :
    (∀ (it : Archive.MediaIter), it.err.isSome = true → ∀ n,
      (Archive.runN n it).next.1 = false ∧ (Archive.runN n it).err = it.err) ∧
    (∀ (it : Instagram.MediaIter), it.err.isSome = true → ∀ n,
      (Instagram.runN n it).next.1 = false ∧ (Instagram.runN n it).err = it.err) := by
  constructor
  · intro it h n
    rw [Archive.arch_runN_of_err n it h, Archive.arch_next_of_err it h]
    exact ⟨rfl, rfl⟩
  · intro it h n
    rw [Instagram.remote_runN_of_err n it h, Instagram.remote_next_of_err it h]
    exact ⟨rfl, rfl⟩

/-- A canceled context makes the archive iterator's Next return false without
touching the state. -/
theorem Archive.next_of_canceled (it : Archive.MediaIter) (h : it.ctxCanceled = true) :
    it.next = (false, it) := by
  unfold Archive.MediaIter.next
  rw [h]
  simp

/-- Repeated Next calls leave a cancel-blocked archive iterator unchanged. -/
theorem Archive.runN_of_canceled (n : Nat) (it : Archive.MediaIter) (h : it.ctxCanceled = true) :
    Archive.runN n it = it := by
  induction n with
  | zero => rfl
  | succ n ih =>
    show Archive.runN n it.next.2 = it
    rw [Archive.next_of_canceled it h]
    exact ih

/-- C10: for the archive iterator, after the context passed to List is
canceled every subsequent Next call returns false while Err still returns
nil, so cancellation is indistinguishable from clean exhaustion at the
iterator interface. -/
theorem canceled_ctx_indistinguishable_from_exhaustion (it : Archive.MediaIter)
    (hcancel : it.ctxCanceled = true) (herr : it.err = none) :
    ∀ n, (Archive.runN n it).next.1 = false ∧ (Archive.runN n it).err = none := by
  intro n
  rw [Archive.runN_of_canceled n it hcancel, Archive.next_of_canceled it hcancel]
  exact ⟨rfl, herr⟩

/-- C10 witness: a concrete canceled, error-free iterator mid-timeline keeps
returning false with a nil error. -/
theorem canceled_ctx_indistinguishable_from_exhaustion_witness :
    let it : Archive.MediaIter :=
      { err := none, ctxCanceled := true, cursor := 0, current := none,
        timeline := [Media.mk "a" MediaTypeImage "c" "" "" "fa" "" "" 10 []] }
    (Archive.runN 2 it).next.1 = false ∧ (Archive.runN 2 it).err = none :=
  canceled_ctx_indistinguishable_from_exhaustion _ rfl rfl 2

/-- C8: the archive source's List yields a faulted iterator (Err non-nil and
Next false) whenever the manifest is absent from the archive or is an empty
file; an empty manifest is a fault, never an empty-success iteration. The
hypothesis on `decode` records that Go's json.Decoder fails with io.EOF on
empty input. -/
theorem absent_or_empty_manifest_is_fault
    (manifest : Option (Except String String))
    (decode : String → Except String Archive.Nomenclature)
    (hEOF : ∃ e, decode "" = Except.error e)
    (h : manifest = none ∨ manifest = some (Except.ok "")) :
    (Archive.list manifest decode).err.isSome = true ∧
    (Archive.list manifest decode).next.1 = false := by
  have herr : (Archive.list manifest decode).err.isSome = true := by
    rcases h with h | h
    · subst h; rfl
    · subst h
      obtain ⟨e, he⟩ := hEOF
      simp [Archive.list, he]
  refine ⟨herr, ?_⟩
  rw [Archive.arch_next_of_err _ herr]

/-- C8 witness: an archive whose media.json is present but empty, decoded by
a decoder that fails with EOF on empty input, yields a faulted iterator. -/
theorem absent_or_empty_manifest_is_fault_witness :
    (∃ e, (fun _ : String => (Except.error "EOF" : Except String Archive.Nomenclature)) ""
        = Except.error e) ∧
    (Archive.list (some (Except.ok ""))
        (fun _ => Except.error "EOF")).err.isSome = true ∧
    (Archive.list (some (Except.ok ""))
        (fun _ => Except.error "EOF")).next.1 = false :=
  ⟨⟨"EOF", rfl⟩, absent_or_empty_manifest_is_fault _ _ ⟨"EOF", rfl⟩ (Or.inr rfl)⟩

open Igshelf

/-- The matching scan never runs past the end of the list. -/
theorem Archive.matchRun_le_length (m : Media) (l : List Media) :
    Archive.matchRun m l ≤ l.length := by
  induction l with
  | nil => simp [Archive.matchRun]
  | cons x xs ih =>
    unfold Archive.matchRun
    split
    · simpa using Nat.succ_le_succ ih
    · simp

/-- Next on a clean iterator: either the shifted cursor is past the timeline
and iteration stops, or it emits the item at the shifted cursor. -/
theorem Archive.next_clean (it : Archive.MediaIter) (he : it.err = none)
    (hc : it.ctxCanceled = false) :
    it.next =
      if it.timeline.length ≤ Archive.effCursor it
      then (false, { it with cursor := Archive.effCursor it })
      else (true, { it with
                      cursor := Archive.effCursor it,
                      current := some (Archive.emitAt it.timeline (Archive.effCursor it)) }) := by
  obtain ⟨err, cc, cursor, current, tl⟩ := it
  simp only at he hc
  subst he hc
  unfold Archive.MediaIter.next Archive.effCursor Archive.emitAt
  simp only [Option.isSome_none, Bool.false_or]
  rfl

/-- Zeta-reduced form of `emitAt`. -/
theorem Archive.emitAt_eq (tl : List Media) (c : Nat) :
    Archive.emitAt tl c
      = if 0 < Archive.matchRun (tl.getD c mdefault) (tl.drop (c + 1)) then
          Media.mk ((tl.getD c mdefault).id ++ "album") MediaTypeAlbum
            (tl.getD c mdefault).caption "" "" "" "" "" (tl.getD c mdefault).takenAt
            ((tl.drop c).take (Archive.matchRun (tl.getD c mdefault) (tl.drop (c + 1)) + 1))
        else tl.getD c mdefault := rfl

/-- Unfolding of the spec-side grouping at a position inside the timeline:
the group for the run at `c` followed by the grouping of what is left after
the run. -/
theorem Archive.groupRuns_drop (tl : List Media) (c : Nat) (h : c < tl.length) :
    Archive.groupRunsSpec (tl.drop c)
      = Archive.emitAt tl c :: Archive.groupRunsSpec (tl.drop (c + Archive.runLenAt tl c)) := by
  have hdrop : tl.drop c = tl[c] :: tl.drop (c + 1) := List.drop_eq_getElem_cons h
  have hgetD : tl.getD c mdefault = tl[c] := List.getD_eq_getElem tl mdefault h
  rw [Archive.emitAt_eq]
  unfold Archive.runLenAt
  rw [hgetD, hdrop]
  rw [Archive.groupRunsSpec]
  by_cases h0 : 0 < Archive.matchRun tl[c] (tl.drop (c + 1))
  · rw [if_pos h0, if_pos h0]
    set k := Archive.matchRun tl[c] (tl.drop (c + 1)) with hk
    have htake : (tl[c] :: tl.drop (c + 1)).take (k + 1) = tl[c] :: (tl.drop (c + 1)).take k :=
      List.take_succ_cons
    have hdd : (tl.drop (c + 1)).drop k = tl.drop (c + (k + 1)) := by
      rw [List.drop_drop]
      congr 1
      omega
    rw [htake, hdd]
    rfl
  · rw [if_neg h0, if_neg h0]
    have hk0 : Archive.matchRun tl[c] (tl.drop (c + 1)) = 0 := by omega
    rw [hk0]

/-- On a flat timeline the cursor shift for the emitted item (its children
count for an album, one for a leaf) is exactly the run length at it. -/
theorem Archive.emit_stride (tl : List Media) (hflat : ∀ m ∈ tl, m.children = [])
    (c : Nat) (h : c < tl.length) :
    (if (Archive.emitAt tl c).children.length > 0
      then c + (Archive.emitAt tl c).children.length else c + 1)
      = c + Archive.runLenAt tl c := by
  have hgetD : tl.getD c mdefault = tl[c] := List.getD_eq_getElem tl mdefault h
  rw [Archive.emitAt_eq]
  unfold Archive.runLenAt
  by_cases h0 : 0 < Archive.matchRun (tl.getD c mdefault) (tl.drop (c + 1))
  · rw [if_pos h0]
    set k := Archive.matchRun (tl.getD c mdefault) (tl.drop (c + 1)) with hk
    have hklen : k ≤ tl.length - (c + 1) := by
      have h2 := Archive.matchRun_le_length (tl.getD c mdefault) (tl.drop (c + 1))
      rw [List.length_drop] at h2
      rw [← hk] at h2
      exact h2
    have hlen : ((tl.drop c).take (k + 1)).length = k + 1 := by
      simp only [List.length_take, List.length_drop]
      omega
    simp only [Media.children, hlen]
    have hpos : k + 1 > 0 := Nat.succ_pos k
    rw [if_pos hpos]
  · rw [if_neg h0]
    have hk0 : Archive.matchRun (tl.getD c mdefault) (tl.drop (c + 1)) = 0 := by omega
    have hch : (tl.getD c mdefault).children = [] := by
      rw [hgetD]
      exact hflat tl[c] (List.getElem_mem h)
    rw [hk0, hch]
    simp

/-- One-step unfolding of `collect`. -/
theorem Archive.arch_collect_succ (fuel : Nat) (it : Archive.MediaIter) :
    Archive.collect (fuel + 1) it
      = match it.next with
        | (true, it') => it'.current.getD mdefault :: Archive.collect fuel it'
        | (false, _) => [] := rfl

/-- The grouping of an empty timeline is empty. -/
theorem Archive.groupRuns_nil : Archive.groupRunsSpec [] = [] := by
  rw [Archive.groupRunsSpec]

/-- Draining a clean archive iterator with enough fuel yields exactly the
spec-side grouping of the not-yet-consumed part of its flat timeline. -/
theorem Archive.collect_clean (tl : List Media) (hflat : ∀ m ∈ tl, m.children = []) :
    ∀ (n : Nat) (it : Archive.MediaIter), it.err = none → it.ctxCanceled = false →
    it.timeline = tl → tl.length - Archive.effCursor it < n →
    Archive.collect n it = Archive.groupRunsSpec (tl.drop (Archive.effCursor it)) := by
  intro n
  induction n with
  | zero => intro it _ _ _ hn; omega
  | succ n ih =>
    intro it he hc ht hn
    rw [Archive.arch_collect_succ]
    by_cases hle : tl.length ≤ Archive.effCursor it
    · have hnx : it.next = (false, { it with cursor := Archive.effCursor it }) := by
        rw [Archive.next_clean it he hc, ht, if_pos hle]
      rw [hnx]
      dsimp only
      rw [List.drop_eq_nil_of_le hle, Archive.groupRuns_nil]
    · have hnx : it.next = (true, { it with
          cursor := Archive.effCursor it,
          current := some (Archive.emitAt tl (Archive.effCursor it)) }) := by
        rw [Archive.next_clean it he hc, ht, if_neg hle]
      rw [hnx]
      dsimp only [Option.getD]
      rw [Archive.groupRuns_drop tl (Archive.effCursor it) (by omega)]
      congr 1
      have heff' : Archive.effCursor { it with
            cursor := Archive.effCursor it,
            current := some (Archive.emitAt tl (Archive.effCursor it)) }
          = Archive.effCursor it + Archive.runLenAt tl (Archive.effCursor it) :=
        Archive.emit_stride tl hflat (Archive.effCursor it) (by omega)
      have hrun : 1 ≤ Archive.runLenAt tl (Archive.effCursor it) := Nat.succ_le_succ (Nat.zero_le _)
      have hrec := ih { it with
                     cursor := Archive.effCursor it,
                     current := some (Archive.emitAt tl (Archive.effCursor it)) }
        he hc ht (by rw [heff']; omega)
      rw [heff'] at hrec
      exact hrec

/-- C1: on a flat timeline sorted descending by takenAt, draining the Archive
Album Reconstructor yields exactly the spec-side grouping: maximal contiguous
runs agreeing with the run's first entry on takenAt and caption, a run of
length 1 giving the leaf itself unchanged, a run of length at least 2 giving
one synthesized CAROUSEL_ALBUM whose id is the first member's id plus the
fixed suffix "album", whose caption and takenAt are the first member's, and
whose children are the run in sorted order; the cursor skips the entire run
before the next item is produced. -/
theorem archive_iter_emits_grouped_runs (tl : List Media)
    (hflat : (tl.all fun m => m.children.isEmpty) = true)
    (_hsorted : tl.Pairwise fun a b => b.takenAt ≤ a.takenAt) :
    Archive.collect (tl.length + 1) (Archive.initIter tl) = Archive.groupRunsSpec tl := by
  have hflat' : ∀ m ∈ tl, m.children = [] := by
    intro m hm
    exact List.isEmpty_iff.mp (List.all_eq_true.mp hflat m hm)
  have h0 : Archive.effCursor (Archive.initIter tl) = 0 := rfl
  have := Archive.collect_clean tl hflat' (tl.length + 1) (Archive.initIter tl) rfl rfl rfl
    (by rw [h0]; omega)
  rw [h0, List.drop_zero] at this
  exact this

/-- C1 witness: the spec's concrete scenario — two IMAGE leaves sharing
takenAt and caption followed by an older leaf — yields one synthesized album
and the untouched third leaf. -/
theorem archive_iter_emits_grouped_runs_witness :
    (([Media.mk "a" MediaTypeImage "c" "" "" "fa" "" "" 10 [],
       Media.mk "b" MediaTypeImage "c" "" "" "fb" "" "" 10 [],
       Media.mk "z" MediaTypeImage "x" "" "" "fz" "" "" 5 []].all
        fun m => m.children.isEmpty) = true) ∧
    ([Media.mk "a" MediaTypeImage "c" "" "" "fa" "" "" 10 [],
      Media.mk "b" MediaTypeImage "c" "" "" "fb" "" "" 10 [],
      Media.mk "z" MediaTypeImage "x" "" "" "fz" "" "" 5 []].Pairwise
        fun a b => b.takenAt ≤ a.takenAt) ∧
    Archive.collect 4 (Archive.initIter
        [Media.mk "a" MediaTypeImage "c" "" "" "fa" "" "" 10 [],
         Media.mk "b" MediaTypeImage "c" "" "" "fb" "" "" 10 [],
         Media.mk "z" MediaTypeImage "x" "" "" "fz" "" "" 5 []])
      = Archive.groupRunsSpec
        [Media.mk "a" MediaTypeImage "c" "" "" "fa" "" "" 10 [],
         Media.mk "b" MediaTypeImage "c" "" "" "fb" "" "" 10 [],
         Media.mk "z" MediaTypeImage "x" "" "" "fz" "" "" 5 []] :=
  ⟨rfl, by decide,
    archive_iter_emits_grouped_runs
      [Media.mk "a" MediaTypeImage "c" "" "" "fa" "" "" 10 [],
       Media.mk "b" MediaTypeImage "c" "" "" "fb" "" "" 10 [],
       Media.mk "z" MediaTypeImage "x" "" "" "fz" "" "" 5 []] rfl (by decide)⟩

/-- Albums produced by the spec-side grouping of an album-free timeline copy
takenAt and caption from their first child. -/
theorem Archive.groupRuns_album_head :
    ∀ (l : List Media), (∀ m ∈ l, m.type ≠ MediaTypeAlbum) →
    ∀ x ∈ Archive.groupRunsSpec l, x.type = MediaTypeAlbum →
      x.children ≠ [] ∧ x.takenAt = (x.children.getD 0 mdefault).takenAt
        ∧ x.caption = (x.children.getD 0 mdefault).caption := by
  intro l
  induction l using Archive.groupRunsSpec.induct with
  | case1 =>
    intro _ x hx
    rw [Archive.groupRuns_nil] at hx
    simp at hx
  | case2 m rest k hk ih =>
    intro htype x hx hxa
    rw [Archive.groupRunsSpec] at hx
    rw [if_pos hk] at hx
    rcases List.mem_cons.mp hx with h | h
    · subst h
      refine ⟨by simp [Archive.mkAlbumSpec, Media.children], rfl, rfl⟩
    · exact ih (fun y hy => htype y (List.mem_cons_of_mem _ (List.mem_of_mem_drop hy))) x h hxa
  | case3 m rest k hk ih =>
    intro htype x hx hxa
    rw [Archive.groupRunsSpec] at hx
    rw [if_neg hk] at hx
    rcases List.mem_cons.mp hx with h | h
    · subst h
      exact absurd hxa (htype x (List.mem_cons_self x rest))
    · exact ih (fun y hy => htype y (List.mem_cons_of_mem _ hy)) x h hxa

/-- C9 (amended): every CAROUSEL_ALBUM item emitted by the archive iterator
over a flat timeline of non-album leaves has non-empty children and copies
takenAt and caption from its first child. -/
theorem archive_album_matches_first_child (tl : List Media)
    (hflat : (tl.all fun m => m.children.isEmpty) = true)
    (htype : (tl.all fun m => m.type != MediaTypeAlbum) = true) :
    ∀ x ∈ Archive.collect (tl.length + 1) (Archive.initIter tl),
      x.type = MediaTypeAlbum →
      x.children ≠ [] ∧ x.takenAt = (x.children.getD 0 mdefault).takenAt
        ∧ x.caption = (x.children.getD 0 mdefault).caption := by
  have hflat' : ∀ m ∈ tl, m.children = [] := by
    intro m hm
    exact List.isEmpty_iff.mp (List.all_eq_true.mp hflat m hm)
  have h0 : Archive.effCursor (Archive.initIter tl) = 0 := rfl
  have heq := Archive.collect_clean tl hflat' (tl.length + 1) (Archive.initIter tl) rfl rfl rfl
    (by rw [h0]; omega)
  rw [h0, List.drop_zero] at heq
  rw [heq]
  exact Archive.groupRuns_album_head tl
    (fun m hm => bne_iff_ne.mp (List.all_eq_true.mp htype m hm))

/-- C9 witness: on two leaves sharing takenAt 10 and caption "c", the
synthesized album copies both from its first child. -/
theorem archive_album_matches_first_child_witness :
    (([Media.mk "a" MediaTypeImage "c" "" "" "fa" "" "" 10 [],
       Media.mk "b" MediaTypeImage "c" "" "" "fb" "" "" 10 []].all
        fun m => m.children.isEmpty) = true) ∧
    (([Media.mk "a" MediaTypeImage "c" "" "" "fa" "" "" 10 [],
       Media.mk "b" MediaTypeImage "c" "" "" "fb" "" "" 10 []].all
        fun m => m.type != MediaTypeAlbum) = true) ∧
    (Media.mk "aalbum" MediaTypeAlbum "c" "" "" "" "" "" 10
        [Media.mk "a" MediaTypeImage "c" "" "" "fa" "" "" 10 [],
         Media.mk "b" MediaTypeImage "c" "" "" "fb" "" "" 10 []]
      ∈ Archive.collect 3 (Archive.initIter
        [Media.mk "a" MediaTypeImage "c" "" "" "fa" "" "" 10 [],
         Media.mk "b" MediaTypeImage "c" "" "" "fb" "" "" 10 []])) ∧
    ((Media.mk "aalbum" MediaTypeAlbum "c" "" "" "" "" "" 10
        [Media.mk "a" MediaTypeImage "c" "" "" "fa" "" "" 10 [],
         Media.mk "b" MediaTypeImage "c" "" "" "fb" "" "" 10 []]).children ≠ [] ∧
     (Media.mk "aalbum" MediaTypeAlbum "c" "" "" "" "" "" 10
        [Media.mk "a" MediaTypeImage "c" "" "" "fa" "" "" 10 [],
         Media.mk "b" MediaTypeImage "c" "" "" "fb" "" "" 10 []]).takenAt
       = ((Media.mk "aalbum" MediaTypeAlbum "c" "" "" "" "" "" 10
        [Media.mk "a" MediaTypeImage "c" "" "" "fa" "" "" 10 [],
         Media.mk "b" MediaTypeImage "c" "" "" "fb" "" "" 10 []]).children.getD 0
           mdefault).takenAt ∧
     (Media.mk "aalbum" MediaTypeAlbum "c" "" "" "" "" "" 10
        [Media.mk "a" MediaTypeImage "c" "" "" "fa" "" "" 10 [],
         Media.mk "b" MediaTypeImage "c" "" "" "fb" "" "" 10 []]).caption
       = ((Media.mk "aalbum" MediaTypeAlbum "c" "" "" "" "" "" 10
        [Media.mk "a" MediaTypeImage "c" "" "" "fa" "" "" 10 [],
         Media.mk "b" MediaTypeImage "c" "" "" "fb" "" "" 10 []]).children.getD 0
           mdefault).caption) := by
  refine ⟨rfl, rfl, List.mem_singleton_self _, ?_⟩
  exact archive_album_matches_first_child
    [Media.mk "a" MediaTypeImage "c" "" "" "fa" "" "" 10 [],
     Media.mk "b" MediaTypeImage "c" "" "" "fb" "" "" 10 []] rfl rfl
    (Media.mk "aalbum" MediaTypeAlbum "c" "" "" "" "" "" 10
      [Media.mk "a" MediaTypeImage "c" "" "" "fa" "" "" 10 [],
       Media.mk "b" MediaTypeImage "c" "" "" "fb" "" "" 10 []])
    (List.mem_singleton_self _) rfl

/-- C9 counterexample: a native CAROUSEL_ALBUM emitted by the remote
paginated iterator carries its own takenAt and caption while its first child
(normalized without timestamp or caption, which the children query does not
request) does not match them. -/
theorem remote_album_differs_from_first_child :
    let out := (Instagram.collect 2 (Instagram.initIter
        [⟨[Instagram.RawMedia.mk "ra" "CAROUSEL_ALBUM" "cap" "ua" "pa" "" 5
            [Instagram.RawMedia.mk "rc" "VIDEO" "" "uc" "" "tc" 0 []]], ""⟩])).getD 0 mdefault
    out.type = MediaTypeAlbum ∧ out.children.length = 1
      ∧ (out.children.getD 0 mdefault).takenAt ≠ out.takenAt
      ∧ (out.children.getD 0 mdefault).caption ≠ out.caption := by
  decide

/-- Helper: a string with the video-cover suffix appended is never empty. -/
theorem cover_suffix_ne_empty (s : String) : s ++ "_cover.jpg" ≠ "" := by
  intro h
  have hlen := congrArg String.length h
  rw [String.length_append] at hlen
  have h10 : ("_cover.jpg" : String).length = 10 := rfl
  have h0 : ("" : String).length = 0 := rfl
  rw [h10, h0] at hlen
  omega

/-- C7 (amended): per-page normalization assigns a thumbnail filename to an
item exactly when its raw type is VIDEO — for top-level items and for nested
album children alike — and normalized children are exactly the normalized raw
children. -/
theorem thumbnail_filename_iff_video (t : Int) (c raw : Instagram.RawMedia) :
    ((Instagram.normChild t c).thumbnailFilename ≠ "" ↔ c.type = MediaTypeVideo) ∧
    ((Instagram.normalize raw).thumbnailFilename ≠ "" ↔ raw.type = MediaTypeVideo) ∧
    (Instagram.normalize raw).children = raw.children.map (Instagram.normChild raw.takenAt) := by
  have hc : (Instagram.normChild t c).thumbnailFilename
      = if c.type = MediaTypeVideo then (Instagram.formatYM t ++ c.id) ++ "_cover.jpg"
        else "" := rfl
  have hr : (Instagram.normalize raw).thumbnailFilename
      = if raw.type = MediaTypeVideo then (Instagram.formatYM raw.takenAt ++ raw.id) ++ "_cover.jpg"
        else "" := rfl
  refine ⟨?_, ?_, rfl⟩
  · rw [hc]
    by_cases hv : c.type = MediaTypeVideo
    · rw [if_pos hv]
      exact ⟨fun _ => hv, fun _ => cover_suffix_ne_empty _⟩
    · rw [if_neg hv]
      simp [hv]
  · rw [hr]
    by_cases hv : raw.type = MediaTypeVideo
    · rw [if_pos hv]
      exact ⟨fun _ => hv, fun _ => cover_suffix_ne_empty _⟩
    · rw [if_neg hv]
      simp [hv]

/-- C7 counterexample: a page holding an album with one VIDEO child, put
through the remote iterator, yields that nested child with a non-empty
thumbnail filename. -/
theorem nested_video_child_gets_thumbnail :
    let out := (Instagram.collect 2 (Instagram.initIter
        [⟨[Instagram.RawMedia.mk "rb" "CAROUSEL_ALBUM" "cp" "ub" "pb" "" 8
            [Instagram.RawMedia.mk "rv" "VIDEO" "" "uv" "" "tv" 0 []]], ""⟩])).getD 0 mdefault
    (out.children.getD 0 mdefault).thumbnailFilename ≠ "" := by
  decide

/-- One-step unfolding of the remote `collect`. -/
theorem Instagram.remote_collect_succ (fuel : Nat) (it : Instagram.MediaIter) :
    Instagram.collect (fuel + 1) it
      = match it.next with
        | (true, it') => it'.media :: Instagram.collect fuel it'
        | (false, _) => [] := rfl

/-- `flatPages` of a cons. -/
theorem Instagram.flatPages_cons (p : Instagram.Page) (ps : List Instagram.Page) :
    Instagram.flatPages (p :: ps)
      = p.batch.map Instagram.normalize ++ Instagram.flatPages ps := rfl

/-- A clean iterator with nothing left to yield answers the next call with
false and a nil error (clean exhaustion). -/
theorem Instagram.rstep_nil (it : Instagram.MediaIter) (hg : Instagram.goodR it)
    (he : Instagram.remExp it = []) :
    it.next.1 = false ∧ it.next.2.err = none := by
  obtain ⟨err, cursor, batch, ⟨after, pages⟩⟩ := it
  obtain ⟨herr, hcur, hpag⟩ := hg
  simp only at herr
  subst herr
  simp only [Instagram.remExp] at he
  obtain ⟨hdropn, hflatn⟩ := List.append_eq_nil.mp he
  have hlen : batch.length ≤ cursor + 1 := List.drop_eq_nil_iff.mp hdropn
  unfold Instagram.MediaIter.next
  rw [if_neg (by simp), if_pos hlen]
  simp only [Instagram.pagesOK] at hpag
  rcases hpag with ⟨ha, hp⟩ | ⟨ha, hchain⟩
  · subst ha hp
    rw [show Instagram.fetchStep ⟨some "", []⟩
          = (Except.ok ([] : List Media), (⟨some "", []⟩ : Instagram.FetchSt)) from rfl]
    exact ⟨rfl, rfl⟩
  · cases hps : pages with
    | nil =>
      rw [hps] at hchain
      simp [Instagram.chainOK] at hchain
    | cons p rest =>
      subst hps
      have hf : Instagram.fetchStep ⟨after, p :: rest⟩
          = (Except.ok (p.batch.map Instagram.normalize), ⟨some p.after, rest⟩) := by
        unfold Instagram.fetchStep
        rw [if_neg ha]
      rw [hf]
      rw [Instagram.flatPages_cons] at hflatn
      obtain ⟨hpb, hrest⟩ := List.append_eq_nil.mp hflatn
      have hpbe : p.batch = [] := List.map_eq_nil_iff.mp hpb
      cases hr2 : rest with
      | cons q rest' =>
        rw [hr2] at hchain
        simp [Instagram.chainOK, hpbe] at hchain
      | nil =>
        simp only [hpb]
        exact ⟨rfl, rfl⟩

/-- A clean iterator with at least one item left answers the next call with
true, exposes exactly that item, and stays clean with the rest left. -/
theorem Instagram.rstep_cons (it : Instagram.MediaIter) (hg : Instagram.goodR it)
    (x : Media) (xs : List Media) (he : Instagram.remExp it = x :: xs) :
    it.next.1 = true ∧ it.next.2.media = x ∧ Instagram.goodR it.next.2
      ∧ Instagram.remExp it.next.2 = xs := by
  obtain ⟨err, cursor, batch, ⟨after, pages⟩⟩ := it
  obtain ⟨herr, hcur, hpag⟩ := hg
  simp only at herr
  subst herr
  simp only [Instagram.remExp] at he
  unfold Instagram.MediaIter.next
  rw [if_neg (by simp)]
  by_cases hlen : batch.length ≤ cursor + 1
  · rw [if_pos hlen]
    have hdropn : batch.drop (cursor + 1) = [] := List.drop_eq_nil_of_le hlen
    rw [hdropn, List.nil_append] at he
    rcases hpag with ⟨ha, hp⟩ | ⟨ha, hchain⟩
    · subst ha hp
      rw [show Instagram.flatPages [] = [] from rfl] at he
      exact List.noConfusion he
    · cases pages with
      | nil => simp [Instagram.chainOK] at hchain
      | cons p rest =>
        have hf : Instagram.fetchStep ⟨after, p :: rest⟩
            = (Except.ok (p.batch.map Instagram.normalize), ⟨some p.after, rest⟩) := by
          unfold Instagram.fetchStep
          rw [if_neg ha]
        rw [hf]
        rw [Instagram.flatPages_cons] at he
        cases hpb : p.batch with
        | nil =>
          rw [hpb] at he
          cases rest with
          | nil =>
            rw [show Instagram.flatPages [] = [] from rfl] at he
            simp at he
          | cons q rest' => simp [Instagram.chainOK, hpb] at hchain
        | cons y ys =>
          dsimp only
          rw [if_neg (by simp)]
          rw [hpb, List.map_cons, List.cons_append] at he
          have hx : Instagram.normalize y = x := (List.cons.injEq _ _ _ _).mp he |>.1
          have hxs : ys.map Instagram.normalize ++ Instagram.flatPages rest = xs :=
            (List.cons.injEq _ _ _ _).mp he |>.2
          refine ⟨rfl, ?_, ⟨rfl, ?_, ?_⟩, ?_⟩
          · show (Instagram.normalize y :: ys.map Instagram.normalize).getD 0 mdefault = x
            rw [← hx]
            rfl
          · left
            simp
          · cases hr : rest with
            | nil =>
              rw [hr] at hchain
              left
              constructor
              · show some p.after = some ""
                have : (p.after == "") = true := by
                  simpa [Instagram.chainOK] using hchain
                exact congrArg some (eq_of_beq this)
              · rfl
            | cons q rest' =>
              rw [hr] at hchain
              right
              simp only [Instagram.chainOK, Bool.and_eq_true, Bool.not_eq_true'] at hchain
              refine ⟨?_, hchain.2⟩
              intro hcontra
              have : p.after = "" := by injection hcontra
              rw [this] at hchain
              simp at hchain
          · show (Instagram.normalize y :: ys.map Instagram.normalize).drop 1
                ++ Instagram.flatPages rest = xs
            rw [List.drop_one, List.tail_cons]
            exact hxs
  · rw [if_neg hlen]
    push_neg at hlen
    have hlt : cursor + 1 < batch.length := hlen
    have hdc : batch.drop (cursor + 1) = batch[cursor + 1] :: batch.drop (cursor + 2) :=
      List.drop_eq_getElem_cons hlt
    rw [hdc, List.cons_append] at he
    have hx : batch[cursor + 1] = x := (List.cons.injEq _ _ _ _).mp he |>.1
    have hxs : batch.drop (cursor + 2) ++ Instagram.flatPages pages = xs :=
      (List.cons.injEq _ _ _ _).mp he |>.2
    refine ⟨rfl, ?_, ⟨rfl, ?_, hpag⟩, ?_⟩
    · show batch.getD (cursor + 1) mdefault = x
      rw [List.getD_eq_getElem batch mdefault hlt]
      exact hx
    · left
      simpa using hlt
    · show batch.drop (cursor + 1 + 1) ++ Instagram.flatPages pages = xs
      exact hxs

/-- Peeling one call off `runN`. -/
theorem Instagram.runN_succ (n : Nat) (it : Instagram.MediaIter) :
    Instagram.runN (n + 1) it = Instagram.runN n it.next.2 := rfl

/-- Draining a clean remote iterator yields exactly the items it has left, in
order, and lands in a clean exhausted state. -/
theorem Instagram.consume :
    ∀ (l : List Media) (it : Instagram.MediaIter), Instagram.goodR it →
      Instagram.remExp it = l →
      Instagram.collect (l.length + 1) it = l ∧ Instagram.goodR (Instagram.runN l.length it)
        ∧ Instagram.remExp (Instagram.runN l.length it) = [] := by
  intro l
  induction l with
  | nil =>
    intro it hg he
    obtain ⟨hf, _⟩ := Instagram.rstep_nil it hg he
    refine ⟨?_, hg, he⟩
    rw [Instagram.remote_collect_succ]
    rcases hx : it.next with ⟨b, it2⟩
    rw [hx] at hf
    simp only at hf
    subst hf
    rfl
  | cons x xs ih =>
    intro it hg he
    obtain ⟨h1, h2, h3, h4⟩ := Instagram.rstep_cons it hg x xs he
    rcases hx : it.next with ⟨b, it2⟩
    rw [hx] at h1 h2 h3 h4
    simp only at h1 h2 h3 h4
    subst h1
    obtain ⟨hc, hg', he'⟩ := ih it2 h3 h4
    refine ⟨?_, ?_, ?_⟩
    · rw [Instagram.remote_collect_succ, hx]
      dsimp only
      rw [h2]
      show x :: Instagram.collect (xs.length + 1) it2 = x :: xs
      rw [hc]
    · rw [show (x :: xs).length = xs.length + 1 from rfl, Instagram.runN_succ, hx]
      exact hg'
    · rw [show (x :: xs).length = xs.length + 1 from rfl, Instagram.runN_succ, hx]
      exact he'

/-- C2 (amended): for a finite page sequence delivered in order and
terminated by the single page whose nextCursor is empty, with every page
before the last non-empty, the remote iterator's Next returns true exactly
once per item — in page order, exposing exactly the normalized items — and
then returns false with Err nil. -/
theorem remote_iter_true_per_item_then_false (pages : List Instagram.Page)
    (h : Instagram.chainOK pages = true) :
    Instagram.collect ((Instagram.flatPages pages).length + 1) (Instagram.initIter pages)
        = Instagram.flatPages pages
    ∧ (Instagram.runN (Instagram.flatPages pages).length
        (Instagram.initIter pages)).next.1 = false
    ∧ (Instagram.runN (Instagram.flatPages pages).length
        (Instagram.initIter pages)).next.2.err = none := by
  have hg : Instagram.goodR (Instagram.initIter pages) := by
    refine ⟨rfl, Or.inr ⟨rfl, rfl⟩, Or.inr ⟨by simp [Instagram.initIter], ?_⟩⟩
    exact h
  have hre : Instagram.remExp (Instagram.initIter pages) = Instagram.flatPages pages := rfl
  obtain ⟨hc, hg', he'⟩ :=
    Instagram.consume (Instagram.flatPages pages) (Instagram.initIter pages) hg hre
  obtain ⟨hf, hferr⟩ := Instagram.rstep_nil _ hg' he'
  exact ⟨hc, hf, hferr⟩

/-- C2 witness: two pages of two and one items; the iterator yields the three
normalized items then stops cleanly. -/
theorem remote_iter_true_per_item_then_false_witness :
    (Instagram.chainOK
      [⟨[Instagram.RawMedia.mk "r1" "IMAGE" "c1" "u1" "p1" "" 7 [],
         Instagram.RawMedia.mk "r2" "VIDEO" "c2" "u2" "p2" "t2" 6 []], "x"⟩,
       ⟨[Instagram.RawMedia.mk "r3" "IMAGE" "c3" "u3" "p3" "" 5 []], ""⟩] = true) ∧
    (Instagram.collect
        ((Instagram.flatPages
          [⟨[Instagram.RawMedia.mk "r1" "IMAGE" "c1" "u1" "p1" "" 7 [],
             Instagram.RawMedia.mk "r2" "VIDEO" "c2" "u2" "p2" "t2" 6 []], "x"⟩,
           ⟨[Instagram.RawMedia.mk "r3" "IMAGE" "c3" "u3" "p3" "" 5 []], ""⟩]).length + 1)
        (Instagram.initIter
          [⟨[Instagram.RawMedia.mk "r1" "IMAGE" "c1" "u1" "p1" "" 7 [],
             Instagram.RawMedia.mk "r2" "VIDEO" "c2" "u2" "p2" "t2" 6 []], "x"⟩,
           ⟨[Instagram.RawMedia.mk "r3" "IMAGE" "c3" "u3" "p3" "" 5 []], ""⟩])
      = Instagram.flatPages
          [⟨[Instagram.RawMedia.mk "r1" "IMAGE" "c1" "u1" "p1" "" 7 [],
             Instagram.RawMedia.mk "r2" "VIDEO" "c2" "u2" "p2" "t2" 6 []], "x"⟩,
           ⟨[Instagram.RawMedia.mk "r3" "IMAGE" "c3" "u3" "p3" "" 5 []], ""⟩]) :=
  ⟨rfl,
    (remote_iter_true_per_item_then_false
      [⟨[Instagram.RawMedia.mk "r1" "IMAGE" "c1" "u1" "p1" "" 7 [],
         Instagram.RawMedia.mk "r2" "VIDEO" "c2" "u2" "p2" "t2" 6 []], "x"⟩,
       ⟨[Instagram.RawMedia.mk "r3" "IMAGE" "c3" "u3" "p3" "" 5 []], ""⟩] rfl).1⟩

/-- C2 counterexample: an empty page carrying a non-empty nextCursor,
followed by a one-item terminal page, makes Next return false immediately:
zero true results instead of the claimed one per item. -/
theorem remote_iter_stops_at_empty_mid_page :
    Instagram.collect
        ((Instagram.flatPages
          [⟨[], "x"⟩, ⟨[Instagram.RawMedia.mk "r1" "IMAGE" "c1" "u1" "p1" "" 7 []], ""⟩]).length
          + 1)
        (Instagram.initIter
          [⟨[], "x"⟩, ⟨[Instagram.RawMedia.mk "r1" "IMAGE" "c1" "u1" "p1" "" 7 []], ""⟩])
      = []
    ∧ (Instagram.flatPages
        [⟨[], "x"⟩, ⟨[Instagram.RawMedia.mk "r1" "IMAGE" "c1" "u1" "p1" "" 7 []], ""⟩]).length
      = 1 :=
  ⟨rfl, rfl⟩

/-- When the filesystem accepts every write, a worker never reports a fatal
error: missing filenames and fetch faults are swallowed. -/
theorem Downloader.processItem_swallows (env : Downloader.DlEnv) (fs : Downloader.FS)
    (m : Media) (hw : ∀ p, env.writeOk p = true) :
    (Downloader.processItem env fs m).2.2 = none := by
  dsimp only [Downloader.processItem]
  split
  · rfl
  · split
    · rfl
    · split
      · rfl
      · rw [hw, if_pos rfl]
        split
        · rfl
        · rw [hw, if_pos rfl]

/-- When the filesystem accepts every write, the whole copy loop finishes
without a fatal error. -/
theorem Downloader.copyItems_swallow (env : Downloader.DlEnv)
    (hw : ∀ p, env.writeOk p = true) :
    ∀ (l : List Media) (fs : Downloader.FS),
      (Downloader.copyItems env fs l).2.2 = none := by
  intro l
  induction l with
  | nil => intro fs; rfl
  | cons m rest ih =>
    intro fs
    unfold Downloader.copyItems
    rcases hp : Downloader.processItem env fs m with ⟨fs1, w1, e1⟩
    have he1 : e1 = none := by
      have h := Downloader.processItem_swallows env fs m hw
      rw [hp] at h
      exact h
    subst he1
    dsimp only
    rcases hc : Downloader.copyItems env fs1 rest with ⟨fs2, w2, e2⟩
    have he2 : e2 = none := by
      have h := ih fs1
      rw [hc] at h
      exact h
    subst he2
    rfl

/-- Unfolding of a run whose listing and store both succeed. -/
theorem Downloader.download_ok_store (env : Downloader.DlEnv) (tl : List Media)
    (fs0 : Downloader.FS) :
    Downloader.download env (Except.ok tl) true fs0
      = ((Downloader.copyItems env fs0 (Downloader.workList tl)).2.2, some tl,
         (Downloader.copyItems env fs0 (Downloader.workList tl)).1,
         (Downloader.copyItems env fs0 (Downloader.workList tl)).2.1) := rfl

/-- C4 (amended): every orchestrator run ends in one of exactly three
states — success with the timeline persisted; failure while fetching or
storing the timeline, with nothing persisted, the filesystem untouched and
zero writes; or failure on a filesystem write after the timeline has already
been persisted. -/
theorem download_outcome_trichotomy (env : Downloader.DlEnv)
    (lr : Except String (List Media)) (storeOk : Bool) (fs0 : Downloader.FS) :
    ((Downloader.download env lr storeOk fs0).1 = none
      ∧ ∃ tl, lr = Except.ok tl ∧ (Downloader.download env lr storeOk fs0).2.1 = some tl)
    ∨ ((Downloader.download env lr storeOk fs0).1.isSome = true
      ∧ (Downloader.download env lr storeOk fs0).2.1 = none
      ∧ (Downloader.download env lr storeOk fs0).2.2.1 = fs0
      ∧ (Downloader.download env lr storeOk fs0).2.2.2 = 0)
    ∨ ((Downloader.download env lr storeOk fs0).1.isSome = true
      ∧ ∃ tl, lr = Except.ok tl ∧ (Downloader.download env lr storeOk fs0).2.1 = some tl) := by
  cases lr with
  | error e => exact Or.inr (Or.inl ⟨rfl, rfl, rfl, rfl⟩)
  | ok tl =>
    cases storeOk with
    | false => exact Or.inr (Or.inl ⟨rfl, rfl, rfl, rfl⟩)
    | true =>
      rw [Downloader.download_ok_store]
      cases he : (Downloader.copyItems env fs0 (Downloader.workList tl)).2.2 with
      | none => exact Or.inl ⟨rfl, tl, rfl, rfl⟩
      | some e => exact Or.inr (Or.inr ⟨rfl, tl, rfl, rfl⟩)

/-- C4 counterexample: with a filesystem refusing every write, the run
returns an error even though the timeline was already persisted by the
repository, contradicting the claimed two-state outcome. -/
theorem download_error_with_timeline_persisted :
    (Downloader.download
        ⟨"out", fun _ => Except.ok ("data", none), fun _ => false⟩
        (Except.ok [Media.mk "y" MediaTypeImage "" "" "" "y.jpg" "" "" 0 []]) true []).1.isSome
      = true
    ∧ (Downloader.download
        ⟨"out", fun _ => Except.ok ("data", none), fun _ => false⟩
        (Except.ok [Media.mk "y" MediaTypeImage "" "" "" "y.jpg" "" "" 0 []]) true []).2.1
      = some [Media.mk "y" MediaTypeImage "" "" "" "y.jpg" "" "" 0 []] := ⟨rfl, rfl⟩

/-- A refused content write is a per-item fatal fault: for every environment,
filesystem and work item whose fetch succeeds, if the filesystem refuses the
content path the worker reports the content-write error. -/
theorem Downloader.processItem_content_write_fault (env : Downloader.DlEnv)
    (fs : Downloader.FS) (m : Media) (content : String) (thumbnail : Option String)
    (hfn : m.filename ≠ "")
    (hex : Downloader.osIsExist
      (Downloader.osStat fs (Downloader.pathJoin env.dir m.filename)) = false)
    (hfetch : env.fetch m = Except.ok (content, thumbnail))
    (hw : env.writeOk (Downloader.pathJoin env.dir m.filename) = false) :
    (Downloader.processItem env fs m).2.2
      = some ("failed to store media content " ++ m.id) := by
  dsimp only [Downloader.processItem]
  rw [if_neg hfn, if_neg (by simp [hex]), hfetch]
  dsimp only
  rw [hw]
  rfl

/-- A refused thumbnail write is just as fatal: for every environment,
filesystem and work item whose fetch succeeds with a thumbnail, if the
content write is accepted but the filesystem refuses the thumbnail path the
worker reports the thumbnail-write error. -/
theorem Downloader.processItem_thumbnail_write_fault (env : Downloader.DlEnv)
    (fs : Downloader.FS) (m : Media) (content tb : String)
    (hfn : m.filename ≠ "")
    (hex : Downloader.osIsExist
      (Downloader.osStat fs (Downloader.pathJoin env.dir m.filename)) = false)
    (hfetch : env.fetch m = Except.ok (content, some tb))
    (hwc : env.writeOk (Downloader.pathJoin env.dir m.filename) = true)
    (hwt : env.writeOk (Downloader.pathJoin env.dir m.thumbnailFilename) = false) :
    (Downloader.processItem env fs m).2.2
      = some ("failed to store media thumbnail " ++ m.id) := by
  dsimp only [Downloader.processItem]
  rw [if_neg hfn, if_neg (by simp [hex]), hfetch]
  dsimp only
  rw [hwc, if_pos rfl]
  rw [hwt]
  rfl

/-- A worker fault stops the run wherever it happens: for every environment,
initial filesystem and work list split as pre ++ m :: rest, if the items
before m all succeed and m's worker reports a fault, the whole copy loop
reports a fault and the final filesystem is m's — the items of rest are
never processed. -/
theorem Downloader.copyItems_fault_stops :
    ∀ (pre : List Media) (env : Downloader.DlEnv) (fs0 : Downloader.FS) (m : Media)
      (rest : List Media),
      (Downloader.copyItems env fs0 pre).2.2 = none →
      ((Downloader.processItem env (Downloader.copyItems env fs0 pre).1 m).2.2).isSome
        = true →
      ((Downloader.copyItems env fs0 (pre ++ m :: rest)).2.2).isSome = true
        ∧ (Downloader.copyItems env fs0 (pre ++ m :: rest)).1
            = (Downloader.processItem env (Downloader.copyItems env fs0 pre).1 m).1 := by
  intro pre
  induction pre with
  | nil =>
    intro env fs0 m rest _ hfault
    simp only [List.nil_append]
    have hfault2 : (Downloader.processItem env fs0 m).2.2.isSome = true := hfault
    rcases hp : Downloader.processItem env fs0 m with ⟨fs1, w1, e1⟩
    rw [hp] at hfault2
    cases e1 with
    | none => simp at hfault2
    | some e =>
      have hc : Downloader.copyItems env fs0 (m :: rest) = (fs1, w1, some e) := by
        unfold Downloader.copyItems
        rw [hp]
      rw [hc]
      refine ⟨rfl, ?_⟩
      show fs1 = (Downloader.processItem env fs0 m).1
      rw [hp]
  | cons q pre2 ih =>
    intro env fs0 m rest hpre hfault
    simp only [List.cons_append]
    rcases hq : Downloader.processItem env fs0 q with ⟨fsq, wq, eq⟩
    cases eq with
    | some e =>
      have hbad : (Downloader.copyItems env fs0 (q :: pre2)).2.2 = some e := by
        unfold Downloader.copyItems
        rw [hq]
      rw [hpre] at hbad
      exact Option.noConfusion hbad
    | none =>
      rcases hc2 : Downloader.copyItems env fsq pre2 with ⟨fs2, w2, e2⟩
      have hstep : Downloader.copyItems env fs0 (q :: pre2) = (fs2, wq + w2, e2) := by
        unfold Downloader.copyItems
        rw [hq]
        dsimp only
        rw [hc2]
      rw [hstep] at hpre hfault
      have he2 : e2 = none := hpre
      subst he2
      have hfault2 : ((Downloader.processItem env fs2 m).2.2).isSome = true := hfault
      have hpre2 : (Downloader.copyItems env fsq pre2).2.2 = none := by
        rw [hc2]
      have hfault3 : ((Downloader.processItem env
          (Downloader.copyItems env fsq pre2).1 m).2.2).isSome = true := by
        rw [hc2]
        exact hfault2
      obtain ⟨ha, hb⟩ := ih env fsq m rest hpre2 hfault3
      rcases hc3 : Downloader.copyItems env fsq (pre2 ++ m :: rest) with ⟨fs3, w3, e3⟩
      have hstep3 : Downloader.copyItems env fs0 (q :: (pre2 ++ m :: rest))
          = (fs3, wq + w3, e3) := by
        unfold Downloader.copyItems
        rw [hq]
        dsimp only
        rw [hc3]
      rw [hc3] at ha hb
      rw [hc2] at hb
      refine ⟨?_, ?_⟩
      · rw [hstep3]
        exact ha
      · rw [hstep3, hstep]
        exact hb

/-- C5: a per-item fetch fault is logged and swallowed and never makes the
run fail, while a filesystem write fault is fatal — universally. Conjuncts:
(1) for every environment, timeline and filesystem, if every write is
accepted the run returns no error whatever the fetch results are; (2) the
run's returned error is exactly the copy loop's fault, for every timeline;
(3) for every work item whose fetch succeeds, a refused content write makes
its worker report a fault; (4) likewise a refused thumbnail write after an
accepted content write; (5) a worker fault at any position of any work list
makes the whole copy loop report a fault and leaves the remaining items
unprocessed (the final filesystem is the faulting item's). The closing
conjuncts exercise the concrete scenarios: Download failing for X but
succeeding for Y and Z completes the run with Y and Z written and X absent;
a refused content write for Y fails the run and Z is never written; a
refused thumbnail write fails the run with the thumbnail-write error. -/
theorem fetch_fault_swallowed_write_fault_fatal :
    (∀ (env : Downloader.DlEnv) (tl : List Media) (fs0 : Downloader.FS),
      (∀ p, env.writeOk p = true) →
      (Downloader.download env (Except.ok tl) true fs0).1 = none) ∧
    (∀ (env : Downloader.DlEnv) (tl : List Media) (fs0 : Downloader.FS),
      (Downloader.download env (Except.ok tl) true fs0).1
        = (Downloader.copyItems env fs0 (Downloader.workList tl)).2.2) ∧
    (∀ (env : Downloader.DlEnv) (fs : Downloader.FS) (m : Media)
        (content : String) (thumbnail : Option String),
      m.filename ≠ "" →
      Downloader.osIsExist
        (Downloader.osStat fs (Downloader.pathJoin env.dir m.filename)) = false →
      env.fetch m = Except.ok (content, thumbnail) →
      env.writeOk (Downloader.pathJoin env.dir m.filename) = false →
      ((Downloader.processItem env fs m).2.2).isSome = true) ∧
    (∀ (env : Downloader.DlEnv) (fs : Downloader.FS) (m : Media) (content tb : String),
      m.filename ≠ "" →
      Downloader.osIsExist
        (Downloader.osStat fs (Downloader.pathJoin env.dir m.filename)) = false →
      env.fetch m = Except.ok (content, some tb) →
      env.writeOk (Downloader.pathJoin env.dir m.filename) = true →
      env.writeOk (Downloader.pathJoin env.dir m.thumbnailFilename) = false →
      ((Downloader.processItem env fs m).2.2).isSome = true) ∧
    (∀ (env : Downloader.DlEnv) (fs0 : Downloader.FS) (pre : List Media) (m : Media)
        (rest : List Media),
      (Downloader.copyItems env fs0 pre).2.2 = none →
      ((Downloader.processItem env (Downloader.copyItems env fs0 pre).1 m).2.2).isSome
        = true →
      ((Downloader.copyItems env fs0 (pre ++ m :: rest)).2.2).isSome = true
        ∧ (Downloader.copyItems env fs0 (pre ++ m :: rest)).1
            = (Downloader.processItem env (Downloader.copyItems env fs0 pre).1 m).1) ∧
    ((Downloader.download
        ⟨"out",
         fun m => if m.id = "x" then Except.error "boom"
                  else Except.ok ("c" ++ m.id, none),
         fun _ => true⟩
        (Except.ok [Media.mk "x" MediaTypeImage "" "" "" "x.jpg" "" "" 0 [],
                    Media.mk "y" MediaTypeImage "" "" "" "y.jpg" "" "" 0 [],
                    Media.mk "z" MediaTypeImage "" "" "" "z.jpg" "" "" 0 []]) true []).1 = none
      ∧ Downloader.fsGet (Downloader.download
          ⟨"out",
           fun m => if m.id = "x" then Except.error "boom"
                    else Except.ok ("c" ++ m.id, none),
           fun _ => true⟩
          (Except.ok [Media.mk "x" MediaTypeImage "" "" "" "x.jpg" "" "" 0 [],
                      Media.mk "y" MediaTypeImage "" "" "" "y.jpg" "" "" 0 [],
                      Media.mk "z" MediaTypeImage "" "" "" "z.jpg" "" "" 0 []]) true []).2.2.1
          (Downloader.pathJoin "out" "y.jpg") = some "cy"
      ∧ Downloader.fsGet (Downloader.download
          ⟨"out",
           fun m => if m.id = "x" then Except.error "boom"
                    else Except.ok ("c" ++ m.id, none),
           fun _ => true⟩
          (Except.ok [Media.mk "x" MediaTypeImage "" "" "" "x.jpg" "" "" 0 [],
                      Media.mk "y" MediaTypeImage "" "" "" "y.jpg" "" "" 0 [],
                      Media.mk "z" MediaTypeImage "" "" "" "z.jpg" "" "" 0 []]) true []).2.2.1
          (Downloader.pathJoin "out" "z.jpg") = some "cz"
      ∧ Downloader.fsGet (Downloader.download
          ⟨"out",
           fun m => if m.id = "x" then Except.error "boom"
                    else Except.ok ("c" ++ m.id, none),
           fun _ => true⟩
          (Except.ok [Media.mk "x" MediaTypeImage "" "" "" "x.jpg" "" "" 0 [],
                      Media.mk "y" MediaTypeImage "" "" "" "y.jpg" "" "" 0 [],
                      Media.mk "z" MediaTypeImage "" "" "" "z.jpg" "" "" 0 []]) true []).2.2.1
          (Downloader.pathJoin "out" "x.jpg") = none) ∧
    ((Downloader.download
        ⟨"out", fun m => Except.ok ("c" ++ m.id, none),
         fun p => p != Downloader.pathJoin "out" "y.jpg"⟩
        (Except.ok [Media.mk "y" MediaTypeImage "" "" "" "y.jpg" "" "" 0 [],
                    Media.mk "z" MediaTypeImage "" "" "" "z.jpg" "" "" 0 []]) true []).1.isSome
        = true
      ∧ Downloader.fsGet (Downloader.download
          ⟨"out", fun m => Except.ok ("c" ++ m.id, none),
           fun p => p != Downloader.pathJoin "out" "y.jpg"⟩
          (Except.ok [Media.mk "y" MediaTypeImage "" "" "" "y.jpg" "" "" 0 [],
                      Media.mk "z" MediaTypeImage "" "" "" "z.jpg" "" "" 0 []]) true []).2.2.1
          (Downloader.pathJoin "out" "z.jpg") = none) ∧
    (Downloader.download
        ⟨"out", fun _ => Except.ok ("c", some "t"),
         fun p => p != Downloader.pathJoin "out" "yc.jpg"⟩
        (Except.ok [Media.mk "y" MediaTypeVideo "" "" "" "y.mp4" "yc.jpg" "" 0 []])
        true []).1
      = some ("failed to store media thumbnail " ++ "y") := by
  refine ⟨?_, ?_, ?_, ?_, ?_,
    ⟨by decide, by decide, by decide, by decide⟩, ⟨by decide, by decide⟩, by decide⟩
  · intro env tl fs0 hw
    rw [Downloader.download_ok_store]
    exact Downloader.copyItems_swallow env hw (Downloader.workList tl) fs0
  · intro env tl fs0
    rw [Downloader.download_ok_store]
  · intro env fs m content thumbnail hfn hex hfetch hw
    rw [Downloader.processItem_content_write_fault env fs m content thumbnail hfn hex hfetch hw]
    rfl
  · intro env fs m content tb hfn hex hfetch hwc hwt
    rw [Downloader.processItem_thumbnail_write_fault env fs m content tb hfn hex hfetch hwc hwt]
    rfl
  · exact fun env fs0 pre m rest => Downloader.copyItems_fault_stops pre env fs0 m rest

/-- C3 evaluation at the failing input: after a first successful run the
destination file exists — os.Stat returns a nil error — yet os.IsExist of a
nil error is false, so the skip branch never fires and a second identical
run fetches and writes the same file again (one redundant write instead of
zero). -/
theorem rerun_writes_again_despite_existing_file :
    Downloader.osStat
        (Downloader.download
          ⟨"out", fun _ => Except.ok ("data", none), fun _ => true⟩
          (Except.ok [Media.mk "y" MediaTypeImage "" "" "" "y.jpg" "" "" 0 []]) true []).2.2.1
        (Downloader.pathJoin "out" "y.jpg") = none
    ∧ Downloader.osIsExist (Downloader.osStat
        (Downloader.download
          ⟨"out", fun _ => Except.ok ("data", none), fun _ => true⟩
          (Except.ok [Media.mk "y" MediaTypeImage "" "" "" "y.jpg" "" "" 0 []]) true []).2.2.1
        (Downloader.pathJoin "out" "y.jpg")) = false
    ∧ (Downloader.download
        ⟨"out", fun _ => Except.ok ("data", none), fun _ => true⟩
        (Except.ok [Media.mk "y" MediaTypeImage "" "" "" "y.jpg" "" "" 0 []]) true
        (Downloader.download
          ⟨"out", fun _ => Except.ok ("data", none), fun _ => true⟩
          (Except.ok [Media.mk "y" MediaTypeImage "" "" "" "y.jpg" "" "" 0 []]) true []).2.2.1
        ).2.2.2 = 1 := by
  refine ⟨by decide, by decide, by decide⟩
